import Mathlib

/-!
Verification of the clawdesk ticket-board frontend.

This file gives a shallow embedding, in Lean 4, of the parts of the
clawdesk repository that the verified properties talk about:

* the ticket data model (`frontend/src/api/types.ts`);
* the board-state manipulation in `frontend/src/App.tsx`
  (`mergeTickets`, `boardTickets`, `moveTicket`, `collectMoveWarnings`,
  `shouldRefetchFromRealtimePayload`, `handleCreateTicket`);
* the drag-and-drop identifier encodings (`components/board/dnd.ts`);
* the per-ticket activity merge (`buildTicketActivityEntries`);
* a model, written from the specification text, of the backend
  Automation Dispatcher (the backend `main.py` is not part of the
  frontend sources embedded here).

JavaScript `Map` and `Set` values are embedded as association lists and
lists with explicit insert-or-replace / insert-if-absent operations that
mirror `Map.prototype.set`, `Map.prototype.delete` and
`Set.prototype.add`; JavaScript strings are embedded as Lean `String`
with operations defined over the underlying character list, so that all
definitions evaluate inside the kernel.
-/

/-- The `TicketStatus` union type of `frontend/src/api/types.ts`:
`'Plan' | 'Todo' | 'In Progress' | 'Review' | 'Done'`. -/
inductive TicketStatus where
  | plan
  | todo
  | inProgress
  | review
  | done
deriving DecidableEq, Repr

/-- The `TicketPriority` union type of `frontend/src/api/types.ts`:
`'Critical' | 'High' | 'Medium' | 'Low'`. -/
inductive TicketPriority where
  | critical
  | high
  | medium
  | low
deriving DecidableEq, Repr

/-- The `Ticket` record of `frontend/src/api/types.ts`.  The numeric
`id` is an `Int` because the optimistic placeholder tickets created by
`handleCreateTicket` use the negative temporary id `-Date.now()`. -/
structure Ticket where
  id : Int
  title : String
  description : String
  status : TicketStatus
  assignee : String
  priority : TicketPriority
  agent_session_key : Option String
  archived_at : Option String
  created_at : String
  updated_at : String
deriving DecidableEq, Repr

/-- The `TicketEvent` record of `frontend/src/api/types.ts`. -/
structure TicketEvent where
  id : Int
  ticket_id : Int
  event_type : String
  actor : Option String
  details : String
  created_at : String
deriving DecidableEq, Repr

/-- The `TicketComment` record of `frontend/src/api/types.ts`. -/
structure TicketComment where
  id : Int
  ticket_id : Int
  author : String
  content : String
  created_at : String
deriving DecidableEq, Repr

/-- The `PickupResult` record of `frontend/src/api/types.ts`; the
optional fields are embedded as `Option String`, with `none` standing
for an absent (`undefined`) field and `some ""` for a present empty
string, so JavaScript truthiness of `reason` is `reason = some r` with
`r ≠ ""`. -/
structure PickupResult where
  attempted : Bool
  spawned : Bool
  agent_id : Option String
  session_key : Option String
  run_id : Option String
  reason : Option String
deriving DecidableEq, Repr

/-- The `MoveTicketResponse` record of `frontend/src/api/types.ts`
(the `from`/`to` fields are renamed `fromStatus`/`toStatus` because
`from` is a Lean keyword). -/
structure MoveTicketResponse where
  ok : Bool
  ticket : Ticket
  fromStatus : TicketStatus
  toStatus : TicketStatus
  pickup : PickupResult
  warnings : List String
deriving DecidableEq, Repr

/-- The `CreateTicketRequest` record of `frontend/src/api/types.ts`;
optional fields are `Option`s. -/
structure CreateTicketRequest where
  title : String
  description : Option String
  assignee : Option String
  priority : Option TicketPriority
deriving DecidableEq, Repr

/-! ## JavaScript `Map` / `Set` operations

`Map` iteration order is insertion order, and `Map.prototype.set` on an
existing key replaces the value in place.  An association list with the
operations below reproduces exactly that behavior. -/

/-- JavaScript `map.set(k, v)`: replace in place when the key is
present, append otherwise. -/
def mapSet {α : Type} (m : List (Int × α)) (k : Int) (v : α) : List (Int × α) :=
  if m.any (fun p => p.1 = k) then
    m.map (fun p => if p.1 = k then (k, v) else p)
  else
    m ++ [(k, v)]

/-- JavaScript `map.delete(k)` (as used after a `map.has(k)` guard in
the source; deleting an absent key leaves the map unchanged either
way). -/
def mapDelete {α : Type} (m : List (Int × α)) (k : Int) : List (Int × α) :=
  m.filter (fun p => p.1 ≠ k)

/-- JavaScript `map.get(k)`. -/
def mapGet {α : Type} (m : List (Int × α)) (k : Int) : Option α :=
  (m.find? (fun p => p.1 = k)).map (fun p => p.2)

/-- JavaScript `set.add(k)` on a `Set`: append when absent. -/
def setAdd (s : List Int) (k : Int) : List Int :=
  if s.contains k then s else s ++ [k]

/-- JavaScript `set.delete(k)` on a `Set`. -/
def setDelete (s : List Int) (k : Int) : List Int :=
  s.filter (fun x => x ≠ k)

/-! ## Realtime payload filtering (`frontend/src/App.tsx`) -/

/-- A JSON value as produced by `JSON.parse` on a websocket message.
Object fields are kept in order; `JSON.parse` keeps the last of two
duplicate keys, which `jsonLookup` reproduces. -/
inductive Json where
  | null
  | bool (b : Bool)
  | num (n : Int)
  | str (s : String)
  | arr (items : List Json)
  | obj (fields : List (String × Json))
deriving Repr

/-- JavaScript property lookup `payload.type` on a parsed JSON object:
the last entry for the key wins (matching `JSON.parse` on duplicate
keys). -/
def jsonLookup (fields : List (String × Json)) (key : String) : Option Json :=
  (fields.reverse.find? (fun p => p.1 = key)).map (fun p => p.2)

/-- The `REALTIME_REFRESH_EVENT_TYPES` set of `frontend/src/App.tsx`. -/
def REALTIME_REFRESH_EVENT_TYPES : List String :=
  ["ticket_created", "ticket_updated", "ticket_moved", "ticket_archived",
   "comment_added", "ticket_event"]

/-- The `shouldRefetchFromRealtimePayload` function of
`frontend/src/App.tsx`.  The source first rejects any payload that is
falsy or not of JavaScript type `object` (`null`, booleans, numbers and
strings are rejected there; arrays pass the `typeof` test but have no
`type` field, so they fall to the string check and are rejected), then
requires `payload.type` to be a string contained in
`REALTIME_REFRESH_EVENT_TYPES`. -/
def shouldRefetchFromRealtimePayload (payload : Json) : Bool :=
  match payload with
  | .obj fields =>
    match jsonLookup fields "type" with
    | some (.str s) => REALTIME_REFRESH_EVENT_TYPES.contains s
    | _ => false
  | _ => false

/-! ## Board ticket merging (`frontend/src/App.tsx`) -/

/-- The `mergeTickets` function of `frontend/src/App.tsx`: build a
`Map` keyed by ticket id, inserting pending tickets, then server
tickets, then the optimistic entries, and return the values.  The
optimistic tickets are a `Map` in the source and therefore arrive as an
association list here. -/
def mergeTickets (serverTickets : List Ticket) (pendingTickets : List Ticket)
    (optimisticTickets : List (Int × Ticket)) : List Ticket :=
  let m : List (Int × Ticket) := []
  let m := pendingTickets.foldl (fun m t => mapSet m t.id t) m
  let m := serverTickets.foldl (fun m t => mapSet m t.id t) m
  let m := optimisticTickets.foldl (fun m p => mapSet m p.1 p.2) m
  m.map (fun p => p.2)

/-- The `boardTickets` memo of `frontend/src/App.tsx`: the merged
tickets restricted to the unarchived ones. -/
def boardTickets (serverTickets : List Ticket) (pendingTickets : List Ticket)
    (optimisticTickets : List (Int × Ticket)) : List Ticket :=
  (mergeTickets serverTickets pendingTickets optimisticTickets).filter
    (fun t => t.archived_at = none)

/-- The `ticketById` map of `frontend/src/App.tsx`: built by inserting
every board ticket under its id, so a `get` returns the last board
ticket with the requested id. -/
def ticketByIdGet (tickets : List Ticket) (ticketId : Int) : Option Ticket :=
  tickets.foldl (fun acc t => if t.id = ticketId then some t else acc) none

/-! ## Move warnings and the `moveTicket` handler (`frontend/src/App.tsx`) -/

/-- The `collectMoveWarnings` function of `frontend/src/App.tsx`: copy
the response warnings and append `pickup.reason` when the pickup did
not spawn, the reason is truthy (present and non-empty), and the reason
is not already listed. -/
def collectMoveWarnings (response : MoveTicketResponse) : List String :=
  let warnings := response.warnings
  match response.pickup.reason with
  | some reason =>
    if !response.pickup.spawned && reason ≠ "" && !warnings.contains reason then
      warnings ++ [reason]
    else
      warnings
  | none => warnings

/-- The outcome of `moveTicketMutation.mutate`: either the parsed
`MoveTicketResponse`, or a thrown error carrying a message. -/
inductive MoveOutcome where
  | ok (response : MoveTicketResponse)
  | err (message : String)
deriving DecidableEq, Repr

/-- The three pieces of board state that `moveTicket` updates:
`optimisticTickets`, `movingTicketIds` and `warningByTicketId` of
`DashboardPage` in `frontend/src/App.tsx`. -/
structure BoardState where
  optimisticTickets : List (Int × Ticket)
  movingTicketIds : List Int
  warningByTicketId : List (Int × List String)
deriving DecidableEq, Repr

/-- The `moveTicket` handler of `frontend/src/App.tsx`, embedded as a
sequential state-transition function for one call.  The result pairs
`requestIssued` (whether `moveTicketMutation.mutate` was reached) with
the list of successive board states produced by the handler's state
updates, in program order: the early returns (unknown ticket, pending
placeholder with negative id, `from == to`, already-moving guard)
produce no state update and no request; otherwise the optimistic entry
and the moving-id are added, then the mutation outcome is applied —
on success the returned ticket replaces the optimistic entry, the
warning map is set from `collectMoveWarnings` (or the stale entry is
dropped), the refetch completes and the optimistic entry is removed;
on error the optimistic entry is removed; the `finally` block clears
the moving-id in both cases.  `nowIso` is the
`new Date().toISOString()` value observed by the call. -/
def moveTicket (serverTickets : List Ticket) (pendingTickets : List Ticket)
    (s₀ : BoardState) (ticketId : Int) (targetStatus : TicketStatus)
    (nowIso : String) (outcome : MoveOutcome) : Bool × List BoardState :=
  let board := boardTickets serverTickets pendingTickets s₀.optimisticTickets
  match ticketByIdGet board ticketId with
  | none => (false, [])
  | some currentTicket =>
    if currentTicket.id < 0 then (false, [])
    else if currentTicket.status = targetStatus then (false, [])
    else if s₀.movingTicketIds.contains ticketId then (false, [])
    else
      let optimisticTicket : Ticket :=
        { currentTicket with status := targetStatus, updated_at := nowIso }
      let s₁ := { s₀ with
        optimisticTickets := mapSet s₀.optimisticTickets ticketId optimisticTicket }
      let s₂ := { s₁ with movingTicketIds := setAdd s₁.movingTicketIds ticketId }
      match outcome with
      | .ok response =>
        let s₃ := { s₂ with
          optimisticTickets := mapSet s₂.optimisticTickets ticketId response.ticket }
        let warningMessages := collectMoveWarnings response
        let s₄ :=
          if warningMessages.length > 0 then
            { s₃ with warningByTicketId := mapSet s₃.warningByTicketId ticketId warningMessages }
          else
            { s₃ with warningByTicketId := mapDelete s₃.warningByTicketId ticketId }
        let s₅ := { s₄ with optimisticTickets := mapDelete s₄.optimisticTickets ticketId }
        let s₆ := { s₅ with movingTicketIds := setDelete s₅.movingTicketIds ticketId }
        (true, [s₁, s₂, s₃, s₄, s₅, s₆])
      | .err _ =>
        let s₃ := { s₂ with optimisticTickets := mapDelete s₂.optimisticTickets ticketId }
        let s₄ := { s₃ with movingTicketIds := setDelete s₃.movingTicketIds ticketId }
        (true, [s₁, s₂, s₃, s₄])

/-! ## Drag-and-drop identifier encodings (`components/board/dnd.ts`)

JavaScript string operations are defined over the underlying character
list so that every definition evaluates inside the kernel. -/

/-- JavaScript `raw.startsWith(p)`. -/
def strStartsWith (s p : String) : Bool :=
  p.data.isPrefixOf s.data

/-- JavaScript `raw.slice(n)` for a non-negative `n`. -/
def strDrop (s : String) (n : Nat) : String :=
  String.mk (s.data.drop n)

/-- Little-endian decimal digits of `n`, with explicit fuel so the
recursion is structural; `natDecimalRevFuel fuel n` is the full digit
list whenever `n ≤ fuel`. -/
def natDecimalRevFuel : Nat → Nat → List Char
  | _, 0 => []
  | 0, _ + 1 => []
  | fuel + 1, n + 1 => Nat.digitChar ((n + 1) % 10) :: natDecimalRevFuel fuel ((n + 1) / 10)

/-- Decimal digit characters of a natural number, most significant
first (`"0"` for zero). -/
def natToDecimalChars (n : Nat) : List Char :=
  if n = 0 then ['0'] else (natDecimalRevFuel n n).reverse

/-- The JavaScript rendering of an integer-valued number inside a
template literal: an optional minus sign followed by the decimal
digits. -/
def intToDecimalString (n : Int) : String :=
  if n < 0 then String.mk ('-' :: natToDecimalChars n.natAbs)
  else String.mk (natToDecimalChars n.natAbs)

/-- The numeric value of a decimal digit character, `none` for any
other character. -/
def charDigit (c : Char) : Option Nat :=
  if '0' ≤ c ∧ c ≤ '9' then some (c.toNat - '0'.toNat) else none

/-- Parse a non-empty all-digits character list as a natural number;
any non-digit character or the empty list yields `none`. -/
def decimalCharsToNat (cs : List Char) : Option Nat :=
  if cs = [] then none
  else
    cs.foldl
      (fun acc c =>
        match acc, charDigit c with
        | some a, some d => some (a * 10 + d)
        | _, _ => none)
      (some 0)

/-- The JavaScript `Number(value)` conversion followed by the
`Number.isInteger` test, for the string shapes that occur here:
`Number('')` is `0` (an integer), and an optional leading minus
followed by decimal digits parses exactly; all other strings are
treated as non-integers.  Other numeric notations JavaScript would also
accept (surrounding whitespace, a leading plus, decimal points,
exponents, hexadecimal) never arise from `ticketItemId` and are not
modelled. -/
def jsNumberInteger (s : String) : Option Int :=
  match s.data with
  | [] => some 0
  | c :: cs =>
    if c = '-' then (decimalCharsToNat cs).map (fun m => -(m : Int))
    else (decimalCharsToNat (c :: cs)).map (fun m => (m : Int))

/-- The `TICKET_ID_PREFIX` constant of `components/board/dnd.ts`. -/
def TICKET_ID_PREFIX : String := "ticket:"

/-- The `LANE_ID_PREFIX` constant of `components/board/dnd.ts`. -/
def LANE_ID_PREFIX : String := "lane:"

/-- The wire label of each `TicketStatus` union member. -/
def statusLabel : TicketStatus → String
  | .plan => "Plan"
  | .todo => "Todo"
  | .inProgress => "In Progress"
  | .review => "Review"
  | .done => "Done"

/-- The `BOARD_STATUSES` constant of `components/board/dnd.ts`. -/
def BOARD_STATUSES : List TicketStatus :=
  [.todo, .plan, .inProgress, .review, .done]

/-- The `ticketItemId` function of `components/board/dnd.ts`. -/
def ticketItemId (ticketId : Int) : String :=
  TICKET_ID_PREFIX ++ intToDecimalString ticketId

/-- The `laneDropId` function of `components/board/dnd.ts`. -/
def laneDropId (status : TicketStatus) : String :=
  LANE_ID_PREFIX ++ statusLabel status

/-- The `parseTicketItemId` function of `components/board/dnd.ts`. -/
def parseTicketItemId (raw : String) : Option Int :=
  if strStartsWith raw TICKET_ID_PREFIX then
    jsNumberInteger (strDrop raw TICKET_ID_PREFIX.length)
  else
    none

/-- The `parseLaneDropId` function of `components/board/dnd.ts`: strip
the lane marker and return the matching board status when the remainder
is one of the five status labels (`BOARD_STATUSES.includes(value)` in
the source). -/
def parseLaneDropId (raw : String) : Option TicketStatus :=
  if strStartsWith raw LANE_ID_PREFIX then
    let value := strDrop raw LANE_ID_PREFIX.length
    BOARD_STATUSES.find? (fun s => statusLabel s = value)
  else
    none

/-! ## Per-ticket activity merge (`buildTicketActivityEntries`) -/

/-- The `TicketActivityEntry` shape of the ticket drawer component. -/
structure TicketActivityEntry where
  id : String
  createdAt : String
  title : String
  detail : String
deriving DecidableEq, Repr

/-- The title/detail pair returned by `formatActivityEvent` and
`formatHistoryEvent`. -/
structure EventText where
  title : String
  detail : String
deriving DecidableEq, Repr

/-- The `formatEventType` function of the drawer component: split the
tag on underscores, drop empty segments, capitalize each segment and
join with spaces. -/
def formatEventType (value : String) : String :=
  String.intercalate " "
    (((value.data.splitOn '_').map String.mk).filter (fun s => s ≠ "")
      |>.map (fun segment =>
        match segment.data with
        | [] => ""
        | c :: cs => String.mk (c.toUpper :: cs)))

/-- The `formatActivityEvent` function of the drawer component: the
detail falls back to an actor line when `details` is empty (`??`
replaces only a null actor, so an empty actor string is kept). -/
def formatActivityEvent (event : TicketEvent) : EventText :=
  { title := formatEventType event.event_type
    detail :=
      if event.details ≠ "" then event.details
      else (event.actor.getD "System") ++ " updated this ticket." }

/-- The event entry built by `buildTicketActivityEntries` for one
`TicketEvent` (the `id` uses the template literal rendering of the
numeric event id). -/
def activityEventEntry (event : TicketEvent) : TicketActivityEntry :=
  { id := "event-" ++ intToDecimalString event.id
    createdAt := event.created_at
    title := (formatActivityEvent event).title
    detail := (formatActivityEvent event).detail }

/-- The comment entry built by `buildTicketActivityEntries` for one
`TicketComment` (`comment.author || 'User'` and
`comment.content || 'No comment content.'` are truthiness
fallbacks). -/
def activityCommentEntry (comment : TicketComment) : TicketActivityEntry :=
  { id := "comment-" ++ intToDecimalString comment.id
    createdAt := comment.created_at
    title := "Comment by " ++ (if comment.author ≠ "" then comment.author else "User")
    detail := if comment.content ≠ "" then comment.content else "No comment content." }

/-- A model of `String.prototype.localeCompare`, which is
locale-dependent; it is embedded as code-unit lexicographic comparison.
It is reached only when a `created_at` value fails to parse as a date,
a branch none of the verified statements constrain. -/
def charListCompare : List Char → List Char → Int
  | [], [] => 0
  | [], _ :: _ => -1
  | _ :: _, [] => 1
  | c :: cs, d :: ds =>
    if c < d then -1 else if d < c then 1 else charListCompare cs ds

/-- The comparator passed to `.sort` by `buildTicketActivityEntries`:
newest first by parsed date, falling back to a reversed string
comparison when either side fails to parse.  `Date.parse` is a host
function; it enters the embedding as the `dateParse` parameter, with
`none` standing for `NaN` (the non-finite case). -/
def jsDateCompareDesc (dateParse : String → Option Int)
    (left right : TicketActivityEntry) : Int :=
  match dateParse left.createdAt, dateParse right.createdAt with
  | some leftMs, some rightMs => rightMs - leftMs
  | _, _ => charListCompare right.createdAt.data left.createdAt.data

/-- Insert an element into a list, placing it before the first element
`b` with `le a b`. -/
def insertSorted {α : Type} (le : α → α → Bool) (a : α) : List α → List α
  | [] => [a]
  | b :: l => if le a b then a :: b :: l else b :: insertSorted le a l

/-- A model of JavaScript `Array.prototype.sort(cmp)` as insertion sort
with `le a b` standing for `cmp(a, b) <= 0`: for a consistent
comparator the engine must return a sorted permutation of the input,
which is exactly what this function produces. -/
def sortWithComparator {α : Type} (le : α → α → Bool) : List α → List α
  | [] => []
  | a :: l => insertSorted le a (sortWithComparator le l)

/-- The `buildTicketActivityEntries` function of the ticket drawer
component: one entry per event, one per comment, sorted newest
first. -/
def buildTicketActivityEntries (dateParse : String → Option Int)
    (events : List TicketEvent) (comments : List TicketComment) :
    List TicketActivityEntry :=
  let eventEntries := events.map activityEventEntry
  let commentEntries := comments.map activityCommentEntry
  sortWithComparator
    (fun left right => jsDateCompareDesc dateParse left right ≤ 0)
    (eventEntries ++ commentEntries)

/-! ## The two `handleCreateTicket` placeholder tickets -/

/-- The optimistic placeholder ticket built by `handleCreateTicket` in
`frontend/src/App.tsx`: note `status: 'Plan'`. -/
def handleCreateTicketPlaceholder (payload : CreateTicketRequest)
    (temporaryId : Int) (nowIso : String) : Ticket :=
  { id := temporaryId
    title := payload.title
    description := payload.description.getD ""
    status := .plan
    assignee := payload.assignee.getD "Unassigned"
    priority := payload.priority.getD .medium
    agent_session_key := none
    archived_at := none
    created_at := nowIso
    updated_at := nowIso }

/-- The optimistic placeholder ticket built by the `handleCreateTicket`
variant in `src/unnamed/part_008`: note `status: 'Todo'`. -/
def handleCreateTicketPlaceholderPart008 (payload : CreateTicketRequest)
    (temporaryId : Int) (nowIso : String) : Ticket :=
  { id := temporaryId
    title := payload.title
    description := payload.description.getD ""
    status := .todo
    assignee := payload.assignee.getD "Unassigned"
    priority := payload.priority.getD .medium
    agent_session_key := none
    archived_at := none
    created_at := nowIso
    updated_at := nowIso }

/-! ## Automation Dispatcher (modelled from the specification) -/

/-- Modelled from the spec: the workflow state of a ticket as seen by
the backend Automation Dispatcher (the backend `main.py` is not among
the embedded sources; spec sections 3 and 4.3 describe the fields that
matter to dispatch: the status and the nullable
`agent_session_key`). -/
structure DispatchTicket where
  status : TicketStatus
  agent_session_key : Option String
deriving DecidableEq, Repr

/-- Modelled from the spec: the two agent-eligible statuses of section
4.3 (`Plan`, `In Progress`). -/
def agentEligible (status : TicketStatus) : Bool :=
  status = TicketStatus.plan ∨ status = TicketStatus.inProgress

/-- Modelled from the spec: one move trigger reaching the dispatcher —
the destination status of the committed move, and the Gateway Client
outcome for a spawn call were one issued (`some key` is a confirmed
session, `none` a timeout/error/disabled gateway). -/
structure MoveTrigger where
  target : TicketStatus
  gatewayResult : Option String
deriving DecidableEq, Repr

/-- Modelled from the spec, sections 3 and 4.3: process one move.  The
Ticket Store first commits the move (automation runs only after the
primary mutation), clearing `agent_session_key` when the status leaves
the agent-eligible statuses; the dispatcher then attempts exactly one
spawn call when the destination is agent-eligible and no active session
key is held, recording the new session key on success.  The returned
`Bool` reports whether a spawn call was issued. -/
def dispatchOnMove (t : DispatchTicket) (trigger : MoveTrigger) :
    DispatchTicket × Bool :=
  let committed : DispatchTicket :=
    { status := trigger.target
      agent_session_key :=
        if agentEligible trigger.target then t.agent_session_key else none }
  if agentEligible trigger.target && committed.agent_session_key.isNone then
    match trigger.gatewayResult with
    | some key => ({ committed with agent_session_key := some key }, true)
    | none => (committed, true)
  else
    (committed, false)

/-- Modelled from the spec: run the dispatcher over a whole sequence of
move triggers, also counting the spawn calls issued for a ticket that
already held an active session key when the trigger arrived (the count
the idempotence requirement says must stay zero). -/
def runDispatcher (t : DispatchTicket) :
    List MoveTrigger → DispatchTicket × Nat
  | [] => (t, 0)
  | trigger :: rest =>
    let step := dispatchOnMove t trigger
    let tail := runDispatcher step.1 rest
    (tail.1,
      (if step.2 && t.agent_session_key.isSome then 1 else 0) + tail.2)

/-! ## Helper lemmas about the `Map` / `Set` embedding -/

theorem mapGet_mapSet_self {α : Type} (m : List (Int × α)) (k : Int) (v : α) :
    mapGet (mapSet m k v) k = some v := by
  unfold mapSet mapGet
  split
  · rename_i hany
    induction m with
    | nil => simp at hany
    | cons p m ih =>
      by_cases hp : p.1 = k
      · simp [hp]
      · have hany' : m.any (fun p => decide (p.1 = k)) = true := by
          simpa [hp] using hany
        simpa [hp] using ih hany'
  · rename_i hany
    induction m with
    | nil => simp
    | cons p m ih =>
      have hp : ¬ p.1 = k := by
        intro h
        exact hany (by simp [List.any_cons, h])
      have hany' : ¬ m.any (fun p => decide (p.1 = k)) = true := by
        intro h
        exact hany (by simp [List.any_cons, h])
      simpa [hp] using ih hany'

theorem mapDelete_map_update {α : Type} (m : List (Int × α)) (k : Int) (v : α) :
    mapDelete (m.map (fun p => if p.1 = k then (k, v) else p)) k = mapDelete m k := by
  induction m with
  | nil => rfl
  | cons p m ih =>
    by_cases hp : p.1 = k
    · simp [mapDelete, List.filter_cons, hp] at ih ⊢
      exact ih
    · simp [mapDelete, List.filter_cons, hp] at ih ⊢
      exact ih

theorem mapDelete_mapSet {α : Type} (m : List (Int × α)) (k : Int) (v : α) :
    mapDelete (mapSet m k v) k = mapDelete m k := by
  unfold mapSet
  split
  · exact mapDelete_map_update m k v
  · simp [mapDelete, List.filter_append, List.filter_cons]

theorem mapDelete_eq_self {α : Type} (m : List (Int × α)) (k : Int)
    (h : ∀ p ∈ m, p.1 ≠ k) : mapDelete m k = m := by
  unfold mapDelete
  rw [List.filter_eq_self]
  intro p hp
  simpa using h p hp

theorem setDelete_setAdd (s : List Int) (k : Int)
    (h : s.contains k = false) : setDelete (setAdd s k) k = s := by
  have hk : k ∉ s := by simpa using h
  simp only [setAdd, setDelete, h, Bool.false_eq_true, if_false, List.filter_append]
  have h1 : s.filter (fun x => (x ≠ k : Bool)) = s := by
    rw [List.filter_eq_self]
    intro a ha
    simp only [decide_eq_true_eq]
    intro heq
    exact hk (heq ▸ ha)
  simp [h1]
  intro a ha heq
  exact hk (heq ▸ ha)

/-- Helper: the dispatcher issues no spawn call when the ticket already
holds a session key. -/
theorem dispatchOnMove_no_attempt_of_key (t : DispatchTicket)
    (trigger : MoveTrigger) (k : String)
    (hk : t.agent_session_key = some k) :
    (dispatchOnMove t trigger).2 = false := by
  unfold dispatchOnMove
  by_cases he : agentEligible trigger.target
  · simp [he, hk]
  · simp [he]

/-- C8: the Automation Dispatcher never issues a spawn call for a
ticket that already holds an active `agent_session_key` — over every
trigger sequence the count of spawn calls issued while a key was held
is zero, and in particular a rapid retry of the same move into an
agent-eligible status while the key is set issues no spawn call. -/
theorem runDispatcher_idempotent :
    (∀ (t : DispatchTicket) (triggers : List MoveTrigger),
      (runDispatcher t triggers).2 = 0) ∧
    (∀ (t : DispatchTicket) (trigger : MoveTrigger) (k : String),
      t.agent_session_key = some k → (dispatchOnMove t trigger).2 = false) := by
  constructor
  · intro t triggers
    induction triggers generalizing t with
    | nil => rfl
    | cons trigger rest ih =>
      unfold runDispatcher
      cases hsk : t.agent_session_key with
      | none => simp [hsk, ih]
      | some k =>
        simp [dispatchOnMove_no_attempt_of_key t trigger k hsk, ih]
  · exact fun t trigger k hk => dispatchOnMove_no_attempt_of_key t trigger k hk

/-- C8 witness: a ticket in `Plan` holding session key `"sess"`
receives a retried move back into `Plan`; no spawn call is issued, and
the two-trigger run makes zero spawn calls while the key is held. -/
theorem runDispatcher_idempotent_witness :
    (runDispatcher ⟨.plan, some "sess"⟩
      [⟨.plan, some "sess2"⟩, ⟨.plan, some "sess3"⟩]).2 = 0 ∧
    (dispatchOnMove ⟨.plan, some "sess"⟩ ⟨.plan, some "sess2"⟩).2 = false :=
  ⟨runDispatcher_idempotent.1 ⟨.plan, some "sess"⟩
      [⟨.plan, some "sess2"⟩, ⟨.plan, some "sess3"⟩],
    runDispatcher_idempotent.2 ⟨.plan, some "sess"⟩ ⟨.plan, some "sess2"⟩ "sess" rfl⟩

/-- C7 counterexample: at a concrete create request, the placeholder
built by `handleCreateTicket` in `frontend/src/App.tsx` and the one
built by the `handleCreateTicket` in `src/unnamed/part_008` do not
agree on the `status` field, refuting the claim that the two
implementations use the same default status. -/
theorem handleCreateTicket_status_counterexample :
    ¬ (handleCreateTicketPlaceholder ⟨"Task", none, none, none⟩ (-1) "2026-01-01").status =
      (handleCreateTicketPlaceholderPart008 ⟨"Task", none, none, none⟩ (-1) "2026-01-01").status := by
  decide

/-- C7 (amended): the two `handleCreateTicket` implementations disagree
on the placeholder's default status: the `frontend/src/App.tsx` version
always uses `Plan` and the `src/unnamed/part_008` version always uses
`Todo`, while agreeing on every other field. -/
theorem handleCreateTicket_status_amended :
    ∀ (payload : CreateTicketRequest) (temporaryId : Int) (nowIso : String),
      (handleCreateTicketPlaceholder payload temporaryId nowIso).status = .plan ∧
      (handleCreateTicketPlaceholderPart008 payload temporaryId nowIso).status = .todo ∧
      { handleCreateTicketPlaceholder payload temporaryId nowIso with status := .todo } =
        handleCreateTicketPlaceholderPart008 payload temporaryId nowIso :=
  fun _ _ _ => ⟨rfl, rfl, rfl⟩

/-- C2: a move whose target status equals the current board status of
the ticket issues no request and produces no state update at all (the
returned trace of board-state updates is empty, so `optimisticTickets`,
`movingTicketIds` and `warningByTicketId` are untouched). -/
theorem moveTicket_from_eq_to_noop (serverTickets pendingTickets : List Ticket)
    (s₀ : BoardState) (ticketId : Int) (targetStatus : TicketStatus)
    (nowIso : String) (outcome : MoveOutcome) (currentTicket : Ticket)
    (hfind : ticketByIdGet (boardTickets serverTickets pendingTickets s₀.optimisticTickets)
        ticketId = some currentTicket)
    (hstatus : currentTicket.status = targetStatus) :
    moveTicket serverTickets pendingTickets s₀ ticketId targetStatus nowIso outcome =
      (false, []) := by
  simp only [moveTicket, hfind]
  by_cases hneg : currentTicket.id < 0
  · simp [hneg]
  · simp [hneg, hstatus]

/-- C2 witness: moving the concrete board ticket 1 (already in `Todo`)
to `Todo` is a no-op `(false, [])`. -/
theorem moveTicket_from_eq_to_noop_witness :
    moveTicket [⟨1, "T", "", .todo, "U", .medium, none, none, "a", "a"⟩] []
      ⟨[], [], []⟩ 1 .todo "now" (.err "boom") = (false, []) :=
  moveTicket_from_eq_to_noop
    [⟨1, "T", "", .todo, "U", .medium, none, none, "a", "a"⟩] []
    ⟨[], [], []⟩ 1 .todo "now" (.err "boom")
    ⟨1, "T", "", .todo, "U", .medium, none, none, "a", "a"⟩
    (by decide) (by decide)

/-- C3: `collectMoveWarnings` returns the response warnings with
`pickup.reason` appended exactly when the pickup did not spawn, the
reason is a non-empty string, and the reason is not already among the
warnings; a successful spawn leaves the warnings unchanged, and a
failed spawn carrying a non-empty reason always yields a non-empty
result. -/
theorem collectMoveWarnings_spec (response : MoveTicketResponse) :
    (collectMoveWarnings response =
      match response.pickup.reason with
      | some reason =>
        if response.pickup.spawned = false ∧ reason ≠ "" ∧ reason ∉ response.warnings
        then response.warnings ++ [reason]
        else response.warnings
      | none => response.warnings) ∧
    (response.pickup.spawned = true →
      collectMoveWarnings response = response.warnings) ∧
    (∀ reason, response.pickup.spawned = false →
      response.pickup.reason = some reason → reason ≠ "" →
      collectMoveWarnings response ≠ []) := by
  refine ⟨?_, ?_, ?_⟩
  · unfold collectMoveWarnings
    cases hr : response.pickup.reason with
    | none => rfl
    | some reason =>
      by_cases hs : response.pickup.spawned <;>
        by_cases he : reason = "" <;>
          by_cases hm : reason ∈ response.warnings <;>
            simp [hs, he, hm]
  · intro hs
    unfold collectMoveWarnings
    cases hr : response.pickup.reason with
    | none => rfl
    | some reason => simp [hs]
  · intro reason hs hr he
    unfold collectMoveWarnings
    rw [hr]
    by_cases hm : reason ∈ response.warnings
    · have hw : response.warnings ≠ [] := List.ne_nil_of_mem hm
      simp only [hm, hs]
      split <;> simp [hw]
    · simp [hs, he, hm]

/-- C3 witness: a failed spawn with reason `"gateway down"` on a
response with no prior warnings appends the reason, yields a non-empty
list, and a spawned response is left unchanged. -/
theorem collectMoveWarnings_spec_witness :
    (collectMoveWarnings
        ⟨true, ⟨1, "T", "", .plan, "U", .medium, none, none, "a", "a"⟩, .todo, .plan,
          ⟨true, false, none, none, none, some "gateway down"⟩, []⟩ ≠ []) ∧
    (collectMoveWarnings
        ⟨true, ⟨1, "T", "", .plan, "U", .medium, none, none, "a", "a"⟩, .todo, .plan,
          ⟨true, true, none, none, none, none⟩, ["w"]⟩ = ["w"]) :=
  ⟨(collectMoveWarnings_spec
      ⟨true, ⟨1, "T", "", .plan, "U", .medium, none, none, "a", "a"⟩, .todo, .plan,
        ⟨true, false, none, none, none, some "gateway down"⟩, []⟩).2.2
      "gateway down" rfl rfl (by decide),
    (collectMoveWarnings_spec
      ⟨true, ⟨1, "T", "", .plan, "U", .medium, none, none, "a", "a"⟩, .todo, .plan,
        ⟨true, true, none, none, none, none⟩, ["w"]⟩).2.1 rfl⟩

/-- C5: `shouldRefetchFromRealtimePayload` accepts exactly the non-null
JSON objects whose `type` field is a string belonging to the six-element
set `REALTIME_REFRESH_EVENT_TYPES`; every other payload — a non-object,
an object without a string `type`, or a tag outside the set (such as
`ping` or `pong`) — is rejected. -/
theorem shouldRefetchFromRealtimePayload_iff (payload : Json) :
    shouldRefetchFromRealtimePayload payload = true ↔
    ∃ fields s, payload = Json.obj fields ∧
      jsonLookup fields "type" = some (Json.str s) ∧
      s ∈ REALTIME_REFRESH_EVENT_TYPES := by
  cases payload with
  | obj fields =>
    simp only [shouldRefetchFromRealtimePayload]
    cases h : jsonLookup fields "type" with
    | none => simp [h]
    | some j => cases j <;> simp [h]
  | null => simp [shouldRefetchFromRealtimePayload]
  | bool b => simp [shouldRefetchFromRealtimePayload]
  | num n => simp [shouldRefetchFromRealtimePayload]
  | str s => simp [shouldRefetchFromRealtimePayload]
  | arr items => simp [shouldRefetchFromRealtimePayload]

/-- C5 witness: a `ticket_moved` object payload is accepted. -/
theorem shouldRefetchFromRealtimePayload_iff_witness :
    shouldRefetchFromRealtimePayload
      (Json.obj [("ticket_id", Json.num 4), ("type", Json.str "ticket_moved")]) = true :=
  (shouldRefetchFromRealtimePayload_iff
      (Json.obj [("ticket_id", Json.num 4), ("type", Json.str "ticket_moved")])).mpr
    ⟨[("ticket_id", Json.num 4), ("type", Json.str "ticket_moved")],
      "ticket_moved", rfl, rfl, by decide⟩

/-- Helper: a successful `ticketById` lookup returns a member of the
underlying ticket list. -/
theorem ticketByIdGet_mem_aux {i : Int} {t : Ticket} :
    ∀ (l : List Ticket) (acc : Option Ticket),
      l.foldl (fun acc t => if t.id = i then some t else acc) acc = some t →
      t ∈ l ∨ acc = some t := by
  intro l
  induction l with
  | nil => exact fun acc h => Or.inr h
  | cons hd tl ih =>
    intro acc h
    rcases ih (if hd.id = i then some hd else acc) h with hmem | hacc
    · exact Or.inl (List.mem_cons_of_mem hd hmem)
    · by_cases hid : hd.id = i
      · rw [if_pos hid] at hacc
        injection hacc with heq
        exact Or.inl (heq ▸ List.mem_cons_self hd tl)
      · rw [if_neg hid] at hacc
        exact Or.inr hacc

theorem ticketByIdGet_mem {l : List Ticket} {i : Int} {t : Ticket}
    (h : ticketByIdGet l i = some t) : t ∈ l := by
  rcases ticketByIdGet_mem_aux l none h with hmem | hacc
  · exact hmem
  · cases hacc

/-- Helper: every board ticket passed the `archived_at === null`
filter. -/
theorem boardTickets_archived_at {serverTickets pendingTickets : List Ticket}
    {optimisticTickets : List (Int × Ticket)} {t : Ticket}
    (h : t ∈ boardTickets serverTickets pendingTickets optimisticTickets) :
    t.archived_at = none := by
  unfold boardTickets at h
  have := (List.mem_filter.mp h).2
  simpa using this

/-- C1: every ticket in `boardTickets` has `archived_at` equal to
`null`, and whenever `moveTicket` actually issues a move request, the
ticket it looked up in this list is unarchived — so no move request is
ever issued for an archived ticket. -/
theorem moveTicket_only_unarchived (serverTickets pendingTickets : List Ticket)
    (optimisticTickets : List (Int × Ticket)) (s₀ : BoardState) (ticketId : Int)
    (targetStatus : TicketStatus) (nowIso : String) (outcome : MoveOutcome) :
    (∀ t ∈ boardTickets serverTickets pendingTickets optimisticTickets,
      t.archived_at = none) ∧
    ((moveTicket serverTickets pendingTickets s₀ ticketId targetStatus nowIso outcome).1 = true →
      ∃ currentTicket,
        ticketByIdGet (boardTickets serverTickets pendingTickets s₀.optimisticTickets)
          ticketId = some currentTicket ∧
        currentTicket.archived_at = none) := by
  constructor
  · exact fun t ht => boardTickets_archived_at ht
  · intro h
    cases hfind : ticketByIdGet (boardTickets serverTickets pendingTickets s₀.optimisticTickets)
        ticketId with
    | none =>
      rw [moveTicket] at h
      rw [hfind] at h
      simp at h
    | some currentTicket =>
      exact ⟨currentTicket, rfl,
        boardTickets_archived_at (ticketByIdGet_mem hfind)⟩

/-- C1 witness: on a concrete board with one unarchived ticket, the
board invariant holds for that ticket and an issued move finds an
unarchived ticket. -/
theorem moveTicket_only_unarchived_witness :
    (⟨1, "T", "", .todo, "U", .medium, none, none, "a", "a"⟩ : Ticket).archived_at = none ∧
    (∃ currentTicket,
      ticketByIdGet (boardTickets [⟨1, "T", "", .todo, "U", .medium, none, none, "a", "a"⟩] [] [])
        1 = some currentTicket ∧
      currentTicket.archived_at = none) :=
  ⟨(moveTicket_only_unarchived [⟨1, "T", "", .todo, "U", .medium, none, none, "a", "a"⟩]
      [] [] ⟨[], [], []⟩ 1 .plan "now" (.err "boom")).1
      ⟨1, "T", "", .todo, "U", .medium, none, none, "a", "a"⟩ (by decide),
    (moveTicket_only_unarchived [⟨1, "T", "", .todo, "U", .medium, none, none, "a", "a"⟩]
      [] [] ⟨[], [], []⟩ 1 .plan "now" (.err "boom")).2 (by decide)⟩

/-- C4: when the move request is rejected (the mutation throws), the
final board state produced by `moveTicket` has the ticket's optimistic
entry removed (so the display falls back to the pre-move ticket),
`movingTicketIds` restored to its original value, and the warning map
untouched; when there was no pre-existing optimistic entry, removal
restores the optimistic map, and hence the displayed board, exactly;
when the request succeeds, the trace contains a state in which the
server-returned ticket has replaced the optimistic one. -/
theorem moveTicket_error_reverts (serverTickets pendingTickets : List Ticket)
    (s₀ : BoardState) (ticketId : Int) (targetStatus : TicketStatus)
    (nowIso : String) (message : String) (response : MoveTicketResponse)
    (currentTicket : Ticket)
    (hfind : ticketByIdGet (boardTickets serverTickets pendingTickets s₀.optimisticTickets)
        ticketId = some currentTicket)
    (hneg : ¬ currentTicket.id < 0)
    (hstatus : ¬ currentTicket.status = targetStatus)
    (hmoving : s₀.movingTicketIds.contains ticketId = false) :
    ((moveTicket serverTickets pendingTickets s₀ ticketId targetStatus nowIso
        (.err message)).2.getLast? =
      some ⟨mapDelete s₀.optimisticTickets ticketId, s₀.movingTicketIds,
        s₀.warningByTicketId⟩) ∧
    ((∀ p ∈ s₀.optimisticTickets, p.1 ≠ ticketId) →
      boardTickets serverTickets pendingTickets (mapDelete s₀.optimisticTickets ticketId) =
        boardTickets serverTickets pendingTickets s₀.optimisticTickets) ∧
    (∃ s ∈ (moveTicket serverTickets pendingTickets s₀ ticketId targetStatus nowIso
        (.ok response)).2,
      mapGet s.optimisticTickets ticketId = some response.ticket) := by
  have hmoving' : ¬ s₀.movingTicketIds.contains ticketId = true := by
    rw [hmoving]
    simp
  have hlast : ∀ (a b c d : BoardState), [a, b, c, d].getLast? = some d :=
    fun a b c d => rfl
  refine ⟨?_, ?_, ?_⟩
  · simp only [moveTicket, hfind, hneg, hstatus, hmoving, Bool.false_eq_true, if_false]
    refine (hlast _ _ _ _).trans ?_
    rw [mapDelete_mapSet, setDelete_setAdd s₀.movingTicketIds ticketId hmoving]
  · intro hnone
    rw [mapDelete_eq_self s₀.optimisticTickets ticketId hnone]
  · simp only [moveTicket, hfind, hneg, hstatus, hmoving, Bool.false_eq_true, if_false]
    refine ⟨BoardState.mk
      (mapSet (mapSet s₀.optimisticTickets ticketId
        { currentTicket with status := targetStatus, updated_at := nowIso })
        ticketId response.ticket)
      (setAdd s₀.movingTicketIds ticketId)
      s₀.warningByTicketId, ?_,
      mapGet_mapSet_self _ ticketId response.ticket⟩
    simp only [List.mem_cons]
    exact Or.inr (Or.inr (Or.inl trivial))

/-- C4 witness: a rejected move of the concrete board ticket 1 from
`Todo` to `Plan` ends with the optimistic entry removed, the moving set
and warning map restored, and the displayed board unchanged. -/
theorem moveTicket_error_reverts_witness :
    ((moveTicket [⟨1, "T", "", .todo, "U", .medium, none, none, "a", "a"⟩] []
        ⟨[], [], []⟩ 1 .plan "now" (.err "boom")).2.getLast? =
      some ⟨mapDelete [] 1, [], []⟩) ∧
    (boardTickets [⟨1, "T", "", .todo, "U", .medium, none, none, "a", "a"⟩] []
        (mapDelete [] 1) =
      boardTickets [⟨1, "T", "", .todo, "U", .medium, none, none, "a", "a"⟩] [] []) :=
  ⟨(moveTicket_error_reverts [⟨1, "T", "", .todo, "U", .medium, none, none, "a", "a"⟩]
      [] ⟨[], [], []⟩ 1 .plan "now" "boom"
      ⟨true, ⟨1, "T", "", .plan, "U", .medium, none, none, "a", "a"⟩, .todo, .plan,
        ⟨false, false, none, none, none, none⟩, []⟩
      ⟨1, "T", "", .todo, "U", .medium, none, none, "a", "a"⟩
      (by decide) (by decide) (by decide) (by decide)).1,
    (moveTicket_error_reverts [⟨1, "T", "", .todo, "U", .medium, none, none, "a", "a"⟩]
      [] ⟨[], [], []⟩ 1 .plan "now" "boom"
      ⟨true, ⟨1, "T", "", .plan, "U", .medium, none, none, "a", "a"⟩, .todo, .plan,
        ⟨false, false, none, none, none, none⟩, []⟩
      ⟨1, "T", "", .todo, "U", .medium, none, none, "a", "a"⟩
      (by decide) (by decide) (by decide) (by decide)).2.1 (by decide)⟩

/-- Helper: inserting all the given entries in order, the fold
underlying `mergeTickets`. -/
def mapSetAll {α : Type} (m₀ : List (Int × α)) (entries : List (Int × α)) :
    List (Int × α) :=
  entries.foldl (fun m p => mapSet m p.1 p.2) m₀

theorem foldl_mapSet_eq_mapSetAll (l : List Ticket) (m₀ : List (Int × Ticket)) :
    l.foldl (fun m t => mapSet m t.id t) m₀ =
      mapSetAll m₀ (l.map (fun t => (t.id, t))) := by
  unfold mapSetAll
  rw [List.foldl_map]

theorem mapGet_map_update_ne {α : Type} (m : List (Int × α)) (k i : Int) (v : α)
    (h : k ≠ i) :
    mapGet (m.map (fun p => if p.1 = k then (k, v) else p)) i = mapGet m i := by
  induction m with
  | nil => rfl
  | cons p m ih =>
    by_cases hp : p.1 = k
    · have hpi : ¬ p.1 = i := fun hh => h (hp ▸ hh)
      simp only [mapGet, List.map_cons, List.find?_cons, hp, if_pos] at ih ⊢
      simp only [h, hpi, decide_eq_true_eq, if_neg, decide_not]
      simpa [mapGet, h, hpi] using ih
    · simp only [mapGet, List.map_cons, List.find?_cons, hp, if_neg, not_false_iff] at ih ⊢
      by_cases hpi : p.1 = i
      · simp [hpi]
      · simpa [hpi] using ih

theorem mapGet_mapSet_ne {α : Type} (m : List (Int × α)) (k i : Int) (v : α)
    (h : k ≠ i) : mapGet (mapSet m k v) i = mapGet m i := by
  unfold mapSet
  split
  · exact mapGet_map_update_ne m k i v h
  · unfold mapGet
    rw [List.find?_append]
    simp [h]

theorem mem_mapSet {α : Type} {m : List (Int × α)} {k : Int} {v : α}
    {p : Int × α} (h : p ∈ mapSet m k v) : p = (k, v) ∨ p ∈ m := by
  unfold mapSet at h
  split at h
  · rcases List.mem_map.mp h with ⟨q, hq, hfq⟩
    by_cases hqk : q.1 = k
    · rw [if_pos hqk] at hfq
      exact Or.inl hfq.symm
    · rw [if_neg hqk] at hfq
      exact Or.inr (hfq ▸ hq)
  · rcases List.mem_append.mp h with hm | hk
    · exact Or.inr hm
    · exact Or.inl (by simpa using hk)

theorem keys_mapSet_nodup {α : Type} (m : List (Int × α)) (k : Int) (v : α)
    (h : (m.map Prod.fst).Nodup) : ((mapSet m k v).map Prod.fst).Nodup := by
  unfold mapSet
  split
  · have hkeys : (m.map (fun p => if p.1 = k then (k, v) else p)).map Prod.fst =
        m.map Prod.fst := by
      rw [List.map_map]
      apply List.map_congr_left
      intro p _
      by_cases hp : p.1 = k <;> simp [hp]
    rw [hkeys]
    exact h
  · rename_i hany
    have hknotin : k ∉ m.map Prod.fst := by
      intro hk
      rcases List.mem_map.mp hk with ⟨p, hp, hpk⟩
      exact hany (List.any_eq_true.mpr ⟨p, hp, by simp [hpk]⟩)
    rw [List.map_append]
    rw [List.nodup_append]
    refine ⟨h, List.nodup_singleton k, ?_⟩
    intro a ha hb
    have : a = k := by simpa using hb
    exact hknotin (this ▸ ha)

theorem keys_mapSetAll_nodup {α : Type} (entries : List (Int × α)) :
    ∀ (m₀ : List (Int × α)), (m₀.map Prod.fst).Nodup →
      ((mapSetAll m₀ entries).map Prod.fst).Nodup := by
  induction entries with
  | nil => exact fun m₀ h => h
  | cons e es ih =>
    intro m₀ h
    exact ih (mapSet m₀ e.1 e.2) (keys_mapSet_nodup m₀ e.1 e.2 h)

theorem mem_mapSetAll {α : Type} (entries : List (Int × α)) :
    ∀ (m₀ : List (Int × α)) (p : Int × α), p ∈ mapSetAll m₀ entries →
      p ∈ entries ∨ p ∈ m₀ := by
  induction entries with
  | nil => exact fun m₀ p h => Or.inr h
  | cons e es ih =>
    intro m₀ p h
    rcases ih (mapSet m₀ e.1 e.2) p h with hes | hset
    · exact Or.inl (List.mem_cons_of_mem e hes)
    · rcases mem_mapSet hset with heq | hm
      · exact Or.inl (heq ▸ List.mem_cons_self e es)
      · exact Or.inr hm

theorem mapGet_mapSetAll_of_ne {α : Type} (entries : List (Int × α)) :
    ∀ (m₀ : List (Int × α)) (i : Int), (∀ p ∈ entries, p.1 ≠ i) →
      mapGet (mapSetAll m₀ entries) i = mapGet m₀ i := by
  induction entries with
  | nil => exact fun m₀ i _ => rfl
  | cons e es ih =>
    intro m₀ i h
    have he : e.1 ≠ i := h e (List.mem_cons_self e es)
    have hes : ∀ p ∈ es, p.1 ≠ i := fun p hp => h p (List.mem_cons_of_mem e hp)
    rw [mapSetAll, List.foldl_cons]
    rw [show es.foldl (fun m p => mapSet m p.1 p.2) (mapSet m₀ e.1 e.2) =
        mapSetAll (mapSet m₀ e.1 e.2) es from rfl]
    rw [ih (mapSet m₀ e.1 e.2) i hes]
    exact mapGet_mapSet_ne m₀ e.1 i e.2 he

theorem mapGet_mapSetAll {α : Type} (entries : List (Int × α)) :
    ∀ (m₀ : List (Int × α)) (i : Int), (entries.map Prod.fst).Nodup →
      mapGet (mapSetAll m₀ entries) i =
        match entries.find? (fun p => p.1 = i) with
        | some p => some p.2
        | none => mapGet m₀ i := by
  induction entries with
  | nil => exact fun m₀ i _ => rfl
  | cons e es ih =>
    intro m₀ i hnodup
    rw [List.map_cons, List.nodup_cons] at hnodup
    obtain ⟨hkey, hnodup'⟩ := hnodup
    rw [mapSetAll, List.foldl_cons]
    rw [show es.foldl (fun m p => mapSet m p.1 p.2) (mapSet m₀ e.1 e.2) =
        mapSetAll (mapSet m₀ e.1 e.2) es from rfl]
    by_cases he : e.1 = i
    · have hes : ∀ p ∈ es, p.1 ≠ i := by
        intro p hp hpi
        exact hkey (he ▸ hpi ▸ List.mem_map_of_mem Prod.fst hp)
      rw [mapGet_mapSetAll_of_ne es (mapSet m₀ e.1 e.2) i hes]
      rw [List.find?_cons_of_pos _ (by simp [he])]
      rw [he] at *
      exact mapGet_mapSet_self m₀ i e.2
    · rw [ih (mapSet m₀ e.1 e.2) i hnodup']
      rw [List.find?_cons_of_neg _ (by simp [he])]
      cases hfind : es.find? (fun p => p.1 = i) with
      | some p => simp
      | none => simp [mapGet_mapSet_ne m₀ e.1 i e.2 he]

theorem find?_map_snd (m : List (Int × Ticket)) (i : Int)
    (hid : ∀ p ∈ m, p.2.id = p.1) :
    (m.map Prod.snd).find? (fun t => t.id = i) = mapGet m i := by
  induction m with
  | nil => rfl
  | cons p m ih =>
    have hp : p.2.id = p.1 := hid p (List.mem_cons_self p m)
    have hid' : ∀ q ∈ m, q.2.id = q.1 := fun q hq => hid q (List.mem_cons_of_mem p hq)
    by_cases hpi : p.1 = i
    · have hti : p.2.id = i := hp.trans hpi
      simp [mapGet, List.find?_cons, hpi, hti]
    · have hti : ¬ p.2.id = i := fun hh => hpi (hp ▸ hh)
      have htail := ih hid'
      simp only [List.map_cons, List.find?_cons, hti, hpi, decide_eq_true_eq,
        mapGet] at htail ⊢
      simpa [hti, hpi] using htail

/-- C9: `mergeTickets` returns at most one ticket per id (the returned
id list has no duplicates), and for each id the returned ticket is the
optimistic entry when one exists, otherwise the server ticket, otherwise
the pending ticket.  The hypotheses state that each input carries at
most one entry per id and that the optimistic `Map` is keyed by ticket
id, exactly as the `DashboardPage` state maintains it. -/
theorem mergeTickets_spec (serverTickets pendingTickets : List Ticket)
    (optimisticTickets : List (Int × Ticket))
    (hpending : (pendingTickets.map Ticket.id).Nodup)
    (hserver : (serverTickets.map Ticket.id).Nodup)
    (hoptKeys : (optimisticTickets.map Prod.fst).Nodup)
    (hoptIds : ∀ p ∈ optimisticTickets, p.2.id = p.1) :
    ((mergeTickets serverTickets pendingTickets optimisticTickets).map Ticket.id).Nodup ∧
    (∀ i : Int,
      (mergeTickets serverTickets pendingTickets optimisticTickets).find?
          (fun t => t.id = i) =
        match mapGet optimisticTickets i with
        | some t => some t
        | none =>
          match serverTickets.find? (fun t => t.id = i) with
          | some t => some t
          | none => pendingTickets.find? (fun t => t.id = i)) := by
  have hpairkeys : ∀ l : List Ticket,
      (l.map (fun t => (t.id, t))).map Prod.fst = l.map Ticket.id := by
    intro l
    rw [List.map_map]
    rfl
  have hm : mergeTickets serverTickets pendingTickets optimisticTickets =
      (mapSetAll (mapSetAll (mapSetAll []
        (pendingTickets.map (fun t => (t.id, t))))
        (serverTickets.map (fun t => (t.id, t)))) optimisticTickets).map Prod.snd := by
    simp only [mergeTickets]
    rw [foldl_mapSet_eq_mapSetAll, foldl_mapSet_eq_mapSetAll]
    rfl
  have hinv : ∀ p ∈ mapSetAll (mapSetAll (mapSetAll []
      (pendingTickets.map (fun t => (t.id, t))))
      (serverTickets.map (fun t => (t.id, t)))) optimisticTickets,
      p.2.id = p.1 := by
    intro p hp
    rcases mem_mapSetAll _ _ _ hp with hopt | hp2
    · exact hoptIds p hopt
    rcases mem_mapSetAll _ _ _ hp2 with hs | hp3
    · rcases List.mem_map.mp hs with ⟨t, _, rfl⟩
      rfl
    rcases mem_mapSetAll _ _ _ hp3 with hpd | hnil
    · rcases List.mem_map.mp hpd with ⟨t, _, rfl⟩
      rfl
    cases hnil
  have hkeysnodup : ((mapSetAll (mapSetAll (mapSetAll []
      (pendingTickets.map (fun t => (t.id, t))))
      (serverTickets.map (fun t => (t.id, t)))) optimisticTickets).map
        Prod.fst).Nodup := by
    apply keys_mapSetAll_nodup
    apply keys_mapSetAll_nodup
    apply keys_mapSetAll_nodup
    exact List.nodup_nil
  constructor
  · rw [hm, List.map_map]
    have : (Ticket.id ∘ Prod.snd) = fun p : Int × Ticket => p.2.id := rfl
    rw [this]
    have heq : (mapSetAll (mapSetAll (mapSetAll []
        (pendingTickets.map (fun t => (t.id, t))))
        (serverTickets.map (fun t => (t.id, t)))) optimisticTickets).map
          (fun p : Int × Ticket => p.2.id) =
        (mapSetAll (mapSetAll (mapSetAll []
        (pendingTickets.map (fun t => (t.id, t))))
        (serverTickets.map (fun t => (t.id, t)))) optimisticTickets).map
          Prod.fst := by
      apply List.map_congr_left
      intro p hp
      exact hinv p hp
    rw [heq]
    exact hkeysnodup
  · intro i
    rw [hm, find?_map_snd _ i hinv]
    rw [mapGet_mapSetAll optimisticTickets _ i hoptKeys]
    cases hfo : optimisticTickets.find? (fun p => p.1 = i) with
    | some p =>
      simp [mapGet, hfo]
    | none =>
      have hnoopt : mapGet optimisticTickets i = none := by
        simp [mapGet, hfo]
      rw [hnoopt]
      rw [mapGet_mapSetAll (serverTickets.map (fun t => (t.id, t))) _ i
        (by rw [hpairkeys]; exact hserver)]
      rw [List.find?_map]
      cases hfs : serverTickets.find? ((fun p : Int × Ticket => decide (p.1 = i)) ∘
          (fun t => (t.id, t))) with
      | some t =>
        have hfs' : serverTickets.find? (fun t => t.id = i) = some t := hfs
        rw [hfs']
        simp
      | none =>
        have hfs' : serverTickets.find? (fun t => t.id = i) = none := hfs
        rw [hfs']
        simp only [Option.map_none]
        rw [mapGet_mapSetAll (pendingTickets.map (fun t => (t.id, t))) _ i
          (by rw [hpairkeys]; exact hpending)]
        rw [List.find?_map]
        cases hfp : pendingTickets.find? ((fun p : Int × Ticket => decide (p.1 = i)) ∘
            (fun t => (t.id, t))) with
        | some t =>
          have hfp' : pendingTickets.find? (fun t => t.id = i) = some t := hfp
          rw [hfp']
          simp
        | none =>
          have hfp' : pendingTickets.find? (fun t => t.id = i) = none := hfp
          rw [hfp']
          simp [mapGet]

/-- C9 witness: with one server ticket, one pending ticket and one
optimistic entry sharing id 1 with the server ticket, the merged ids
are duplicate-free and the id-1 lookup obeys the
optimistic-over-server-over-pending precedence. -/
theorem mergeTickets_spec_witness :
    ((mergeTickets [⟨1, "S", "", .todo, "U", .medium, none, none, "a", "a"⟩]
        [⟨2, "P", "", .plan, "U", .low, none, none, "a", "a"⟩]
        [(1, ⟨1, "O", "", .review, "U", .medium, none, none, "a", "b"⟩)]).map
          Ticket.id).Nodup ∧
    ((mergeTickets [⟨1, "S", "", .todo, "U", .medium, none, none, "a", "a"⟩]
        [⟨2, "P", "", .plan, "U", .low, none, none, "a", "a"⟩]
        [(1, ⟨1, "O", "", .review, "U", .medium, none, none, "a", "b"⟩)]).find?
          (fun t => t.id = 1) =
      match mapGet [(1, ⟨1, "O", "", .review, "U", .medium, none, none, "a", "b"⟩)]
          (1 : Int) with
      | some t => some t
      | none =>
        match ([⟨1, "S", "", .todo, "U", .medium, none, none, "a", "a"⟩] :
            List Ticket).find? (fun t => t.id = 1) with
        | some t => some t
        | none =>
          ([⟨2, "P", "", .plan, "U", .low, none, none, "a", "a"⟩] :
            List Ticket).find? (fun t => t.id = 1)) :=
  ⟨(mergeTickets_spec [⟨1, "S", "", .todo, "U", .medium, none, none, "a", "a"⟩]
      [⟨2, "P", "", .plan, "U", .low, none, none, "a", "a"⟩]
      [(1, ⟨1, "O", "", .review, "U", .medium, none, none, "a", "b"⟩)]
      (by decide) (by decide) (by decide) (by decide)).1,
    (mergeTickets_spec [⟨1, "S", "", .todo, "U", .medium, none, none, "a", "a"⟩]
      [⟨2, "P", "", .plan, "U", .low, none, none, "a", "a"⟩]
      [(1, ⟨1, "O", "", .review, "U", .medium, none, none, "a", "b"⟩)]
      (by decide) (by decide) (by decide) (by decide)).2 1⟩

theorem charDigit_digitChar : ∀ r < 10, charDigit (Nat.digitChar r) = some r := by
  decide

theorem digitChar_ne_minus : ∀ r < 10, Nat.digitChar r ≠ '-' := by
  decide

theorem natDecimalRevFuel_digits :
    ∀ (fuel n : Nat), n ≤ fuel →
      ∀ c ∈ natDecimalRevFuel fuel n, ∃ r, r < 10 ∧ c = Nat.digitChar r := by
  intro fuel
  induction fuel with
  | zero =>
    intro n hn c hc
    interval_cases n
    cases hc
  | succ fuel ih =>
    intro n hn c hc
    cases n with
    | zero => cases hc
    | succ m =>
      rw [natDecimalRevFuel] at hc
      rcases List.mem_cons.mp hc with hhd | htl
      · exact ⟨(m + 1) % 10, Nat.mod_lt _ (by omega), hhd⟩
      · have hq : (m + 1) / 10 ≤ fuel := by
          have := Nat.div_lt_self (Nat.succ_pos m) (show (1 : Nat) < 10 by omega)
          omega
        exact ih ((m + 1) / 10) hq c htl

theorem foldl_digits_val :
    ∀ (fuel n acc : Nat), n ≤ fuel →
      ((natDecimalRevFuel fuel n).reverse.foldl
        (fun acc c =>
          match acc, charDigit c with
          | some a, some d => some (a * 10 + d)
          | _, _ => none)
        (some acc)) =
      some (acc * 10 ^ (natDecimalRevFuel fuel n).length + n) := by
  intro fuel
  induction fuel with
  | zero =>
    intro n acc hn
    interval_cases n
    simp [natDecimalRevFuel]
  | succ fuel ih =>
    intro n acc hn
    cases n with
    | zero => simp [natDecimalRevFuel]
    | succ m =>
      have hq : (m + 1) / 10 ≤ fuel := by
        have := Nat.div_lt_self (Nat.succ_pos m) (show (1 : Nat) < 10 by omega)
        omega
      have hr : (m + 1) % 10 < 10 := Nat.mod_lt _ (by omega)
      rw [natDecimalRevFuel, List.reverse_cons, List.foldl_append,
        ih ((m + 1) / 10) acc hq, List.foldl_cons, List.foldl_nil]
      simp only [charDigit_digitChar _ hr]
      congr 1
      have hmod : 10 * ((m + 1) / 10) + (m + 1) % 10 = m + 1 := Nat.div_add_mod (m + 1) 10
      have key : ∀ L q r : Nat, (acc * L + q) * 10 + r = acc * (L * 10) + (10 * q + r) := by
        intro L q r
        ring
      rw [List.length_cons, pow_succ, key, hmod]

theorem decimalCharsToNat_natToDecimalChars (n : Nat) :
    decimalCharsToNat (natToDecimalChars n) = some n := by
  by_cases hn : n = 0
  · subst hn
    decide
  · have hshape : ∃ c cs, natDecimalRevFuel n n = c :: cs := by
      cases n with
      | zero => exact absurd rfl hn
      | succ m => exact ⟨_, _, rfl⟩
    rcases hshape with ⟨c, cs, hcons⟩
    have hne : (natDecimalRevFuel n n).reverse ≠ [] := by
      rw [hcons]
      simp
    rw [natToDecimalChars, if_neg hn]
    rw [decimalCharsToNat, if_neg hne]
    rw [foldl_digits_val n n 0 (le_refl n)]
    simp

theorem natToDecimalChars_ne_minus (n : Nat) :
    ∀ c ∈ natToDecimalChars n, c ≠ '-' := by
  intro c hc
  rw [natToDecimalChars] at hc
  by_cases hn : n = 0
  · rw [if_pos hn] at hc
    have : c = '0' := by simpa using hc
    subst this
    decide
  · rw [if_neg hn] at hc
    rw [List.mem_reverse] at hc
    rcases natDecimalRevFuel_digits n n (le_refl n) c hc with ⟨r, hr, rfl⟩
    exact digitChar_ne_minus r hr

theorem jsNumberInteger_cons (c : Char) (cs : List Char) :
    jsNumberInteger (String.mk (c :: cs)) =
      if c = '-' then (decimalCharsToNat cs).map (fun m => -(m : Int))
      else (decimalCharsToNat (c :: cs)).map (fun m => (m : Int)) := rfl

theorem jsNumberInteger_intToDecimalString (n : Int) :
    jsNumberInteger (intToDecimalString n) = some n := by
  by_cases hn : n < 0
  · rw [intToDecimalString, if_pos hn, jsNumberInteger_cons, if_pos rfl,
      decimalCharsToNat_natToDecimalChars]
    have habs : ((n.natAbs : Nat) : Int) = -n := Int.ofNat_natAbs_of_nonpos (le_of_lt hn)
    simp [habs]
  · rw [intToDecimalString, if_neg hn]
    have hne : natToDecimalChars n.natAbs ≠ [] := by
      rw [natToDecimalChars]
      by_cases h0 : n.natAbs = 0
      · rw [if_pos h0]
        simp
      · rw [if_neg h0]
        cases habs : n.natAbs with
        | zero => exact absurd habs h0
        | succ m =>
          rw [natDecimalRevFuel]
          simp
    rcases List.exists_cons_of_ne_nil hne with ⟨c, cs, hcons⟩
    have hcm : ¬ c = '-' :=
      natToDecimalChars_ne_minus n.natAbs c (hcons ▸ List.mem_cons_self c cs)
    rw [hcons, jsNumberInteger_cons, if_neg hcm, ← hcons,
      decimalCharsToNat_natToDecimalChars]
    have habs : ((n.natAbs : Nat) : Int) = n := Int.natAbs_of_nonneg (by omega)
    simp [habs]

/-- C10: the drag-and-drop identifier encodings round-trip — every
integer ticket id survives `parseTicketItemId ∘ ticketItemId`, every
board status survives `parseLaneDropId ∘ laneDropId` — and any string
not bearing the corresponding marker parses to `null`. -/
theorem dnd_identifiers_roundtrip :
    (∀ n : Int, parseTicketItemId (ticketItemId n) = some n) ∧
    (∀ s : TicketStatus, parseLaneDropId (laneDropId s) = some s) ∧
    (∀ raw : String, strStartsWith raw TICKET_ID_PREFIX = false →
      parseTicketItemId raw = none) ∧
    (∀ raw : String, strStartsWith raw LANE_ID_PREFIX = false →
      parseLaneDropId raw = none) := by
  refine ⟨?_, ?_, ?_, ?_⟩
  · intro n
    have hsw : strStartsWith (ticketItemId n) TICKET_ID_PREFIX = true := by
      rw [strStartsWith, ticketItemId, String.data_append]
      exact List.isPrefixOf_iff_prefix.mpr (List.prefix_append _ _)
    rw [parseTicketItemId, if_pos hsw]
    have hdrop : strDrop (ticketItemId n) TICKET_ID_PREFIX.length =
        intToDecimalString n := by
      rw [strDrop, ticketItemId, String.data_append]
      rw [show TICKET_ID_PREFIX.length = TICKET_ID_PREFIX.data.length from rfl,
        List.drop_left]
    rw [hdrop]
    exact jsNumberInteger_intToDecimalString n
  · intro s
    cases s <;> decide
  · intro raw h
    rw [parseTicketItemId, if_neg (by simp [h])]
  · intro raw h
    rw [parseLaneDropId, if_neg (by simp [h])]

/-- C10 witness: a lane identifier does not parse as a ticket
identifier and vice versa. -/
theorem dnd_identifiers_roundtrip_witness :
    parseTicketItemId "lane:Todo" = none ∧ parseLaneDropId "ticket:5" = none :=
  ⟨dnd_identifiers_roundtrip.2.2.1 "lane:Todo" (by decide),
    dnd_identifiers_roundtrip.2.2.2 "ticket:5" (by decide)⟩

theorem insertSorted_perm {α : Type} (le : α → α → Bool) (a : α) :
    ∀ l : List α, (insertSorted le a l).Perm (a :: l) := by
  intro l
  induction l with
  | nil => exact List.Perm.refl _
  | cons b t ih =>
    rw [insertSorted]
    by_cases hab : le a b = true
    · rw [if_pos hab]
    · rw [if_neg hab]
      exact (ih.cons b).trans (List.Perm.swap a b t)

theorem sortWithComparator_perm {α : Type} (le : α → α → Bool) :
    ∀ l : List α, (sortWithComparator le l).Perm l := by
  intro l
  induction l with
  | nil => exact List.Perm.refl _
  | cons a t ih =>
    rw [sortWithComparator]
    exact (insertSorted_perm le a (sortWithComparator le t)).trans (ih.cons a)

theorem mem_insertSorted {α : Type} (le : α → α → Bool) (a x : α) (l : List α) :
    x ∈ insertSorted le a l ↔ x = a ∨ x ∈ l := by
  rw [(insertSorted_perm le a l).mem_iff, List.mem_cons]

theorem insertSorted_pairwise {α : Type} (le : α → α → Bool) (P : α → Prop)
    (htrans : ∀ x y z, P x → P y → P z →
      le x y = true → le y z = true → le x z = true)
    (htotal : ∀ x y, P x → P y → le x y = true ∨ le y x = true)
    (a : α) (ha : P a) :
    ∀ l : List α, (∀ x ∈ l, P x) → l.Pairwise (fun x y => le x y = true) →
      (insertSorted le a l).Pairwise (fun x y => le x y = true) := by
  intro l
  induction l with
  | nil =>
    intro _ _
    simp [insertSorted]
  | cons b t ih =>
    intro hP hpw
    have hPb : P b := hP b (List.mem_cons_self b t)
    have hPt : ∀ x ∈ t, P x := fun x hx => hP x (List.mem_cons_of_mem b hx)
    rcases List.pairwise_cons.mp hpw with ⟨hb, ht⟩
    rw [insertSorted]
    by_cases hab : le a b = true
    · rw [if_pos hab]
      refine List.Pairwise.cons ?_ hpw
      intro c hc
      rcases List.mem_cons.mp hc with rfl | hct
      · exact hab
      · exact htrans a b c ha hPb (hPt c hct) hab (hb c hct)
    · rw [if_neg hab]
      have hba : le b a = true := by
        rcases htotal a b ha hPb with h | h
        · exact absurd h hab
        · exact h
      refine List.Pairwise.cons ?_ (ih hPt ht)
      intro c hc
      rcases (mem_insertSorted le a c t).mp hc with rfl | hct
      · exact hba
      · exact hb c hct

theorem sortWithComparator_pairwise {α : Type} (le : α → α → Bool) (P : α → Prop)
    (htrans : ∀ x y z, P x → P y → P z →
      le x y = true → le y z = true → le x z = true)
    (htotal : ∀ x y, P x → P y → le x y = true ∨ le y x = true) :
    ∀ l : List α, (∀ x ∈ l, P x) →
      (sortWithComparator le l).Pairwise (fun x y => le x y = true) := by
  intro l
  induction l with
  | nil =>
    intro _
    exact List.Pairwise.nil
  | cons a t ih =>
    intro hP
    have hPa : P a := hP a (List.mem_cons_self a t)
    have hPt : ∀ x ∈ t, P x := fun x hx => hP x (List.mem_cons_of_mem a hx)
    have hPsort : ∀ x ∈ sortWithComparator le t, P x := fun x hx =>
      hPt x ((sortWithComparator_perm le t).mem_iff.mp hx)
    rw [sortWithComparator]
    exact insertSorted_pairwise le P htrans htotal a hPa
      (sortWithComparator le t) hPsort (ih hPt)

theorem jsDateCompareDesc_le_iff (dateParse : String → Option Int)
    (a b : TicketActivityEntry) (x y : Int)
    (hx : dateParse a.createdAt = some x) (hy : dateParse b.createdAt = some y) :
    (decide (jsDateCompareDesc dateParse a b ≤ 0) = true ↔ y ≤ x) := by
  simp only [jsDateCompareDesc, hx, hy, decide_eq_true_eq]
  omega

/-- C6: `buildTicketActivityEntries` returns exactly one entry per
event plus one entry per comment (the result is a permutation of the
two mapped entry lists), and whenever every `created_at` value parses
to a finite time the result is sorted by parsed creation time in
descending (non-increasing) order. -/
theorem buildTicketActivityEntries_spec (dateParse : String → Option Int)
    (events : List TicketEvent) (comments : List TicketComment) :
    (buildTicketActivityEntries dateParse events comments).Perm
      (events.map activityEventEntry ++ comments.map activityCommentEntry) ∧
    ((∀ e ∈ events, (dateParse e.created_at).isSome = true) →
      (∀ c ∈ comments, (dateParse c.created_at).isSome = true) →
      (buildTicketActivityEntries dateParse events comments).Pairwise
        (fun a b => ∃ x y, dateParse a.createdAt = some x ∧
          dateParse b.createdAt = some y ∧ y ≤ x)) := by
  constructor
  · simp only [buildTicketActivityEntries]
    exact sortWithComparator_perm _ _
  · intro hev hcom
    have hinput : ∀ x ∈ events.map activityEventEntry ++
        comments.map activityCommentEntry, (dateParse x.createdAt).isSome = true := by
      intro x hx
      rcases List.mem_append.mp hx with hxe | hxc
      · rcases List.mem_map.mp hxe with ⟨e, he, rfl⟩
        exact hev e he
      · rcases List.mem_map.mp hxc with ⟨c, hc, rfl⟩
        exact hcom c hc
    have htrans : ∀ x y z : TicketActivityEntry,
        (dateParse x.createdAt).isSome = true →
        (dateParse y.createdAt).isSome = true →
        (dateParse z.createdAt).isSome = true →
        decide (jsDateCompareDesc dateParse x y ≤ 0) = true →
        decide (jsDateCompareDesc dateParse y z ≤ 0) = true →
        decide (jsDateCompareDesc dateParse x z ≤ 0) = true := by
      intro x y z hx hy hz hxy hyz
      rcases Option.isSome_iff_exists.mp hx with ⟨px, hpx⟩
      rcases Option.isSome_iff_exists.mp hy with ⟨py, hpy⟩
      rcases Option.isSome_iff_exists.mp hz with ⟨pz, hpz⟩
      rw [jsDateCompareDesc_le_iff dateParse x y px py hpx hpy] at hxy
      rw [jsDateCompareDesc_le_iff dateParse y z py pz hpy hpz] at hyz
      rw [jsDateCompareDesc_le_iff dateParse x z px pz hpx hpz]
      omega
    have htotal : ∀ x y : TicketActivityEntry,
        (dateParse x.createdAt).isSome = true →
        (dateParse y.createdAt).isSome = true →
        decide (jsDateCompareDesc dateParse x y ≤ 0) = true ∨
        decide (jsDateCompareDesc dateParse y x ≤ 0) = true := by
      intro x y hx hy
      rcases Option.isSome_iff_exists.mp hx with ⟨px, hpx⟩
      rcases Option.isSome_iff_exists.mp hy with ⟨py, hpy⟩
      rw [jsDateCompareDesc_le_iff dateParse x y px py hpx hpy]
      rw [jsDateCompareDesc_le_iff dateParse y x py px hpy hpx]
      omega
    have hpw := sortWithComparator_pairwise
      (fun left right => decide (jsDateCompareDesc dateParse left right ≤ 0))
      (fun e => (dateParse e.createdAt).isSome = true)
      htrans htotal
      (events.map activityEventEntry ++ comments.map activityCommentEntry) hinput
    simp only [buildTicketActivityEntries]
    refine List.Pairwise.imp_of_mem ?_ hpw
    intro a b ha hb hle
    have hamem : a ∈ events.map activityEventEntry ++ comments.map activityCommentEntry :=
      (sortWithComparator_perm _ _).mem_iff.mp ha
    have hbmem : b ∈ events.map activityEventEntry ++ comments.map activityCommentEntry :=
      (sortWithComparator_perm _ _).mem_iff.mp hb
    rcases Option.isSome_iff_exists.mp (hinput a hamem) with ⟨pa, hpa⟩
    rcases Option.isSome_iff_exists.mp (hinput b hbmem) with ⟨pb, hpb⟩
    exact ⟨pa, pb, hpa, hpb,
      (jsDateCompareDesc_le_iff dateParse a b pa pb hpa hpb).mp hle⟩

/-- C6 witness: one event and one comment with parseable timestamps;
the merged list is a permutation of the two entries and is sorted
newest first. -/
theorem buildTicketActivityEntries_spec_witness :
    (buildTicketActivityEntries
        (fun s => if s = "t1" then some 1 else if s = "t2" then some 2 else none)
        [⟨10, 7, "ticket_moved", none, "moved", "t2"⟩]
        [⟨11, 7, "Ana", "hello", "t1"⟩]).Perm
      (([⟨10, 7, "ticket_moved", none, "moved", "t2"⟩] :
          List TicketEvent).map activityEventEntry ++
        ([⟨11, 7, "Ana", "hello", "t1"⟩] :
          List TicketComment).map activityCommentEntry) ∧
    (buildTicketActivityEntries
        (fun s => if s = "t1" then some 1 else if s = "t2" then some 2 else none)
        [⟨10, 7, "ticket_moved", none, "moved", "t2"⟩]
        [⟨11, 7, "Ana", "hello", "t1"⟩]).Pairwise
      (fun a b => ∃ x y : Int,
        (fun s => if s = "t1" then some 1 else if s = "t2" then some 2 else none)
            a.createdAt = some x ∧
        (fun s => if s = "t1" then some 1 else if s = "t2" then some 2 else none)
            b.createdAt = some y ∧ y ≤ x) :=
  ⟨(buildTicketActivityEntries_spec
      (fun s => if s = "t1" then some 1 else if s = "t2" then some 2 else none)
      [⟨10, 7, "ticket_moved", none, "moved", "t2"⟩]
      [⟨11, 7, "Ana", "hello", "t1"⟩]).1,
    (buildTicketActivityEntries_spec
      (fun s => if s = "t1" then some 1 else if s = "t2" then some 2 else none)
      [⟨10, 7, "ticket_moved", none, "moved", "t2"⟩]
      [⟨11, 7, "Ana", "hello", "t1"⟩]).2 (by decide) (by decide)⟩
